import Mathlib

/-!
Verification of the command-construction and execution layer of a
version-control helper (source file: src/git/git.ts).

JavaScript strings are modelled as Lean strings; the JS string methods the
source relies on (single-occurrence `String.replace` with a string pattern,
`String.includes`, global regex replacement) are modelled on the underlying
character lists, following JS semantics.
-/

/-- JS character-list test: `pat` occurs at position 0 of `s`. -/
def isPrefixOfL : List Char → List Char → Bool
  | [], _ => true
  | _ :: _, [] => false
  | a :: asl, b :: bs => a = b && isPrefixOfL asl bs

/-- JS `s.includes(pat)` on character lists: `pat` occurs somewhere in `s`. -/
def containsL (pat : List Char) : List Char → Bool
  | [] => isPrefixOfL pat []
  | c :: cs => isPrefixOfL pat (c :: cs) || containsL pat cs

/-- JS `s.replace(pat, repl)` with a string pattern: replaces only the FIRST
occurrence of `pat` in `s` (scanning left to right), or leaves `s` unchanged
when `pat` does not occur. -/
def replaceFirstL (pat repl : List Char) : List Char → List Char
  | [] => if isPrefixOfL pat [] then repl else []
  | c :: cs =>
    if isPrefixOfL pat (c :: cs) then repl ++ (c :: cs).drop pat.length
    else c :: replaceFirstL pat repl cs

/-- String wrapper for JS `s.replace(pat, repl)` (first occurrence only). -/
def replaceFirstStr (s pat repl : String) : String :=
  ⟨replaceFirstL pat.data repl.data s.data⟩

/-- String wrapper for JS `s.includes(pat)`. -/
def containsStr (s pat : String) : Bool :=
  containsL pat.data s.data

/-- The global regex replacement of backslashes by forward slashes,
JS `s.replace(bsRegexGlobal, slash)`. -/
def bsToSlash (c : Char) : Char :=
  if c = '\\' then '/' else c

/-- Node `path.posix.basename(p)`: the trailing non-separator run of `p`,
ignoring trailing separators. -/
def nodeBasename (p : String) : String :=
  ⟨(((p.data.reverse.dropWhile (fun c => c = '/')).takeWhile
      (fun c => c ≠ '/')).reverse)⟩

/-- Node `path.posix.dirname(p)`: everything before the separator that
precedes the basename; `.` when there is no such separator and no root,
with the special cases of the Node implementation (`/` for a pure root,
`//` when the found separator is at index 1 of a root-started path). -/
def nodeDirname (p : String) : String :=
  match p.data with
  | [] => "."
  | c0 :: _ =>
    let hasRoot := c0 = '/'
    let r1 := p.data.reverse.dropWhile (fun c => c = '/')
    let r2 := r1.dropWhile (fun c => c ≠ '/')
    match r2 with
    | [] => if hasRoot then "/" else "."
    | _ :: r2t =>
      if r2t = [] then (if hasRoot then "/" else ".")
      else if hasRoot ∧ r2t.length = 1 then "//"
      else ⟨r2t.reverse⟩

/-- Source: `Git.normalizePath` — `fileName.replace(bsRegexGlobal, slash)`,
the global replacement of every backslash by a forward slash. -/
def Git.normalizePath (fileName : String) : String :=
  ⟨fileName.data.map bsToSlash⟩

/-- Source: `Git.splitPath(fileName, repoPath?)`. The optional `repoPath` is
`none` for a missing argument; a supplied empty string is falsy in JS, so it
takes the same branch as a missing argument. In the truthy branch the source
runs `fileName.replace(repoPath + slash, emptyString)`, which removes the
FIRST occurrence of that pattern anywhere in `fileName`. In the falsy branch
it returns the basename and dirname, each with backslashes globally replaced
by forward slashes. -/
def Git.splitPath (fileName : String) (repoPath : Option String) : String × String :=
  match repoPath with
  | some r =>
    if r ≠ "" then (replaceFirstStr fileName (r ++ ("/")) (""), r)
    else (⟨(nodeBasename fileName).data.map bsToSlash⟩,
          ⟨(nodeDirname fileName).data.map bsToSlash⟩)
  | none => (⟨(nodeBasename fileName).data.map bsToSlash⟩,
             ⟨(nodeDirname fileName).data.map bsToSlash⟩)

/-- Source: `UncommittedRegex` is the regex accepting exactly the non-empty
all-zero strings; `Git.isUncommitted(sha)` tests `sha` against it. -/
def Git.isUncommitted (sha : String) : Bool :=
  !sha.data.isEmpty && sha.data.all (fun c => c = '0')

/-- A built external-tool invocation: working directory plus argument list,
as handed by the command builders to `gitCommand`. -/
structure GitCmd where
  cwd : String
  args : List String
deriving DecidableEq

/-- Severity levels of the logging collaborator (`Logger.log`, `Logger.warn`,
`Logger.error`). -/
inductive LogLevel where
  | info
  | warn
  | error
deriving DecidableEq

/-- One emitted log entry: level, category, the variadic argument list and
the working directory the entry reports. -/
structure LogEntry where
  level : LogLevel
  category : String
  args : List String
  cwd : String
deriving DecidableEq

/-- The exception value thrown by a failed spawn. `msg` is the result of
`ex && ex.toString()`: `none` models a falsy exception value (whose string
form is never computed), `some m` the string form of a truthy one. -/
structure JsError where
  msg : Option String
deriving DecidableEq

/-- Source: `gitCommand(cwd, ...args)`. The spawn outcome is supplied by the
environment as `spawn`. On success the result is returned and one info-level
entry is logged; on failure the message is classified (the source literals
are case-sensitive: capital N in the first one) into a warn-level or an
error-level entry, and the identical exception value is re-thrown. The
returned pair is (result or re-thrown error, entries logged). -/
def gitCommand (cwd : String) (args : List String)
    (spawn : Except JsError String) : Except JsError String × List LogEntry :=
  match spawn with
  | Except.ok s => (Except.ok s, [⟨LogLevel.info, "git", args, cwd⟩])
  | Except.error ex =>
    match ex.msg with
    | some m =>
      if containsStr m ("Not a git repository")
          || containsStr m ("is outside repository")
          || containsStr m ("no such path")
      then (Except.error ex, [⟨LogLevel.warn, "git", args, cwd⟩])
      else (Except.error ex, [⟨LogLevel.error, "git", args, cwd⟩])
    | none => (Except.error ex, [⟨LogLevel.error, "git", args, cwd⟩])

/-- The fixed `--format=` template shared by `Git.log` and `Git.logRange`. -/
def logFormatArg : String :=
  "--format=%H -%nauthor %an%nauthor-date %ai%ncommitter %cn%ncommitter-date %ci%nsummary %s%nfilename ?"

/-- Source: `Git.log(fileName, repoPath?)` — splits the normalized path and
builds `log --follow --name-only --no-merges --format=<template> <file>`
rooted at the split root. -/
def Git.log (fileName : String) (repoPath : Option String) : GitCmd :=
  let fr := Git.splitPath (Git.normalizePath fileName) repoPath
  ⟨fr.2, ["log", "--follow", "--name-only", "--no-merges", logFormatArg, fr.1]⟩

/-- Source: `Git.logRange(fileName, start, end, repoPath?)` — splits the
normalized path and builds `log --name-only --no-merges --format=<template>
-L <start>,<end>:<file>` rooted at the split root (the source template has
no `--follow` here). -/
def Git.logRange (fileName : String) (startLine endLine : Nat)
    (repoPath : Option String) : GitCmd :=
  let fr := Git.splitPath (Git.normalizePath fileName) repoPath
  ⟨fr.2, ["log", "--name-only", "--no-merges", logFormatArg,
          ("-L ") ++ toString startLine ++ (",") ++ toString endLine ++ (":") ++ fr.1]⟩

/-- Source: `Git.getVersionedFileText(fileName, repoPath, sha)` — splits the
normalized path, strips the first `^` from `sha` (JS single-occurrence
replace), and either rejects immediately with the uncommitted-sentinel error
message (`Except.error`, carrying the message of the rejected promise — no
command is ever built or spawned on this branch) or returns the `show`
command it hands to `gitCommand` (`Except.ok`). -/
def Git.getVersionedFileText (fileName repoPath sha : String) :
    Except String GitCmd :=
  let fr := Git.splitPath (Git.normalizePath fileName) (some repoPath)
  let sha2 := replaceFirstStr sha ("^") ("")
  if Git.isUncommitted sha2 then
    Except.error (("sha=") ++ sha2 ++ (" is uncommitted"))
  else
    Except.ok ⟨fr.2, ["show", sha2 ++ (":./") ++ fr.1]⟩

/-- How a JS promise is observed by its caller: fulfilled with a value,
rejected with an error, or never settled at all. -/
inductive Settle (α : Type) where
  | resolved : α → Settle α
  | rejected : JsError → Settle α
  | pending : Settle α
deriving DecidableEq

instance {ε α : Type} [DecidableEq ε] [DecidableEq α] :
    DecidableEq (Except ε α) := fun a b =>
  match a, b with
  | Except.ok x, Except.ok y =>
    if h : x = y then Decidable.isTrue (congrArg Except.ok h)
    else Decidable.isFalse (fun g => h (Except.ok.inj g))
  | Except.ok _, Except.error _ => Decidable.isFalse (fun g => Except.noConfusion g)
  | Except.error _, Except.ok _ => Decidable.isFalse (fun g => Except.noConfusion g)
  | Except.error x, Except.error y =>
    if h : x = y then Decidable.isTrue (congrArg Except.error h)
    else Decidable.isFalse (fun g => h (Except.error.inj g))

/-- Environment outcomes of the file-system effects inside
`Git.getVersionedFile`: the `tmp.file` callback result (error, or the
destination path) and the `fs.appendFile` callback result (`some` error, or
`none` on success). -/
structure FsEnv where
  tmpResult : Except JsError String
  appendErr : Option JsError
deriving DecidableEq

/-- The content-fetch step of `Git.getVersionedFile` as its promise outcome:
an immediate sentinel rejection becomes `Except.error` of a `JsError` with
that message; otherwise the built `show` command is run by the environment
(`spawn` gives each spawned command its outcome). -/
def getVersionedFileTextRun (fileName repoPath sha : String)
    (spawn : GitCmd → Except JsError String) : Except JsError String :=
  match Git.getVersionedFileText fileName repoPath sha with
  | Except.error m => Except.error ⟨some m⟩
  | Except.ok cmd => spawn cmd

/-- Source: `Git.getVersionedFile(fileName, repoPath, sha)`, as the
settlement of the promise it returns, given the outcome `textResult` of the
content-fetch step and the file-system outcomes `env`. The source attaches
only a fulfillment handler (`.then(data => ...)` with no rejection handler
and no `.catch`), so when the content fetch rejects, neither `resolve` nor
`reject` of the outer executor is ever called: the returned promise stays
pending forever. -/
def Git.getVersionedFile (textResult : Except JsError String)
    (env : FsEnv) : Settle String :=
  match textResult with
  | Except.error _ => Settle.pending
  | Except.ok _data =>
    match env.tmpResult with
    | Except.error e => Settle.rejected e
    | Except.ok dest =>
      match env.appendErr with
      | some e => Settle.rejected e
      | none => Settle.resolved dest

/-! Helper lemmas about the JS string operations. -/

lemma isPrefixOfL_append (pat t : List Char) : isPrefixOfL pat (pat ++ t) = true := by
  induction pat with
  | nil => rfl
  | cons c cs ih => simp [isPrefixOfL, ih]

lemma replaceFirstL_of_match (pat repl s : List Char) (h : isPrefixOfL pat s = true) :
    replaceFirstL pat repl s = repl ++ s.drop pat.length := by
  cases s with
  | nil => simp [replaceFirstL, h]
  | cons c cs => simp [replaceFirstL, h]

lemma replaceFirstL_append (pat repl t : List Char) :
    replaceFirstL pat repl (pat ++ t) = repl ++ t := by
  rw [replaceFirstL_of_match pat repl (pat ++ t) (isPrefixOfL_append pat t),
    List.drop_left]

lemma replaceFirstL_of_not_contains (pat repl s : List Char)
    (h : containsL pat s = false) : replaceFirstL pat repl s = s := by
  induction s with
  | nil =>
    simp only [containsL] at h
    simp [replaceFirstL, h]
  | cons c cs ih =>
    simp only [containsL, Bool.or_eq_false_iff] at h
    simp [replaceFirstL, h.1, ih h.2]

lemma string_data_append (a b : String) : (a ++ b).data = a.data ++ b.data := rfl

lemma string_eq_empty_iff (s : String) : s = ("") ↔ s.data = [] := by
  constructor
  · intro h; rw [h]
  · intro h
    cases s with
    | mk d => cases h; rfl

lemma replaceFirstStr_append (pre rest : String) :
    replaceFirstStr (pre ++ rest) pre ("") = rest := by
  show (⟨replaceFirstL pre.data (("").data) ((pre ++ rest).data)⟩ : String) = rest
  rw [string_data_append, replaceFirstL_append]
  rfl

lemma bsToSlash_idem (c : Char) : bsToSlash (bsToSlash c) = bsToSlash c := by
  by_cases h : c = '\\' <;> simp [bsToSlash, h]

/-! The claims. -/

/-- C8: normalizePath equals its input with every backslash replaced by a
forward slash and all other characters unchanged (same length, pointwise
substitution), the result contains no backslash, and normalizePath is
idempotent. -/
theorem normalizePath_spec (p : String) :
    ((Git.normalizePath p).data.length = p.data.length
      ∧ ∀ i : Nat, ((Git.normalizePath p).data)[i]? =
          ((p.data)[i]?).map (fun c => if c = '\\' then '/' else c))
    ∧ (∀ c ∈ (Git.normalizePath p).data, c ≠ '\\')
    ∧ Git.normalizePath (Git.normalizePath p) = Git.normalizePath p := by
  refine ⟨⟨by simp [Git.normalizePath], ?_⟩, ?_, ?_⟩
  · intro i
    show ((p.data.map bsToSlash))[i]? = _
    rw [List.getElem?_map]
    cases p.data[i]? with
    | none => rfl
    | some c => by_cases h : c = '\\' <;> simp [bsToSlash, h]
  · intro c hc
    simp only [Git.normalizePath] at hc
    rw [List.mem_map] at hc
    obtain ⟨a, _, ha⟩ := hc
    subst ha
    by_cases h : a = '\\' <;> simp [bsToSlash, h]
  · show (⟨(p.data.map bsToSlash).map bsToSlash⟩ : String) = _
    rw [List.map_map, show bsToSlash ∘ bsToSlash = bsToSlash from funext bsToSlash_idem]
    rfl

/-- C10: isUncommitted accepts exactly the non-empty all-zero strings
(of any length, not only the 40-character sentinel), and rejects the empty
string. -/
theorem isUncommitted_spec :
    (∀ s : String, Git.isUncommitted s = true ↔ (s ≠ ("") ∧ ∀ c ∈ s.data, c = '0'))
    ∧ Git.isUncommitted ("0") = true
    ∧ Git.isUncommitted ("00") = true
    ∧ Git.isUncommitted ("0000000000000000000000000000000000000000") = true
    ∧ Git.isUncommitted ("") = false := by
  refine ⟨?_, by decide, by decide, by decide, by decide⟩
  intro s
  simp [Git.isUncommitted, List.all_eq_true, string_eq_empty_iff,
    List.isEmpty_iff]

/-- C3 counterexample: with root "root" and path "x/root/y" — which does not
start with "root/" but contains it in the middle — splitPath does NOT return
the path unchanged: the JS single-occurrence replace removes the inner
occurrence. -/
theorem splitPath_inner_occurrence_cex :
    containsStr ("x/root/y") (("root") ++ ("/")) = true
    ∧ isPrefixOfL ((("root") ++ ("/")).data) (("x/root/y").data) = false
    ∧ Git.splitPath ("x/root/y") (some ("root")) ≠ (("x/root/y"), ("root"))
    ∧ Git.splitPath ("x/root/y") (some ("root")) = (("x/y"), ("root")) := by
  decide

/-- C3 (amended): for every non-empty supplied root and every path in which
root + "/" does not occur anywhere as a substring, splitPath returns the
path completely unchanged and the root echoed back. (The original claim,
quantified over paths that merely do not START with the prefix, fails: the
source removes the first occurrence of root + "/" anywhere in the path.) -/
theorem splitPath_no_occurrence (path root : String)
    (h1 : root ≠ ("")) (h2 : containsStr path (root ++ ("/")) = false) :
    Git.splitPath path (some root) = (path, root) := by
  have h2l : containsL ((root ++ ("/")).data) path.data = false := h2
  have h3 : replaceFirstStr path (root ++ ("/")) ("") = path := by
    show (⟨replaceFirstL ((root ++ ("/")).data) (("").data) path.data⟩ : String) = path
    rw [replaceFirstL_of_not_contains _ _ _ h2l]
  simp [Git.splitPath, h1, h3]

/-- C3 witness: concrete instance of the amended claim. -/
theorem splitPath_no_occurrence_w :
    (("r") : String) ≠ ("")
    ∧ containsStr ("a.ts") (("r") ++ ("/")) = false
    ∧ Git.splitPath ("a.ts") (some ("r")) = (("a.ts"), ("r")) :=
  ⟨by decide, by decide,
    splitPath_no_occurrence ("a.ts") ("r") (by decide) (by decide)⟩

/-- C7 counterexample: with the supplied root "" (falsy in JS), the path
"/a.ts" does begin with root + "/" = "/", yet splitPath takes the
basename/dirname branch and returns ("a.ts", "/") — the root is not echoed
back, contradicting the claim, which demands ("a.ts", ""). -/
theorem splitPath_empty_root_cex :
    isPrefixOfL ((("") ++ ("/")).data) (("/a.ts").data) = true
    ∧ Git.splitPath ("/a.ts") (some ("")) ≠ (("a.ts"), (""))
    ∧ Git.splitPath ("/a.ts") (some ("")) = (("a.ts"), ("/")) := by
  decide

/-- C7 (amended): for every NON-EMPTY root and every path that begins with
the literal prefix root + "/", splitPath returns the pair of the path with
exactly that leading prefix removed and the root unchanged. (The original
claim fails only for the empty supplied root, which is falsy in JS and takes
the basename/dirname branch.) -/
theorem splitPath_removes_leading_root (root rest : String) (h : root ≠ ("")) :
    Git.splitPath (root ++ ("/") ++ rest) (some root) = (rest, root) := by
  have key := replaceFirstStr_append (root ++ ("/")) rest
  simp [Git.splitPath, h, key]

/-- C7 witness: concrete instance of the amended claim. -/
theorem splitPath_removes_leading_root_w :
    (("r") : String) ≠ ("")
    ∧ Git.splitPath (("r") ++ ("/") ++ ("a.ts")) (some ("r")) = (("a.ts"), ("r")) :=
  ⟨by decide, splitPath_removes_leading_root ("r") ("a.ts") (by decide)⟩

/-- C1 counterexample: at file "r/a.ts", root "r", range (1,2), the
ranged-log argument list is NOT the full-log argument list with only the
plain file argument replaced by the line-annotated one: the full log passes
"--follow" and the ranged log does not. -/
theorem logRange_not_same_flags_cex :
    ("--follow") ∈ (Git.log ("r/a.ts") (some ("r"))).args
    ∧ ("--follow") ∉ (Git.logRange ("r/a.ts") 1 2 (some ("r"))).args
    ∧ (Git.logRange ("r/a.ts") 1 2 (some ("r"))).args ≠
        ((Git.log ("r/a.ts") (some ("r"))).args.dropLast ++ [("-L 1,2:a.ts")]) := by
  decide

/-- C1 (amended): for every file name, line range and optional root, the
ranged-log invocation uses the same working directory and the same flags as
the full-log invocation EXCEPT that `--follow` is omitted, and the plain
file argument is replaced by the line-annotated `-L <start>,<end>:<file>`
argument. -/
theorem logRange_matches_log_amended (fileName : String)
    (startLine endLine : Nat) (repoPath : Option String) :
    (Git.logRange fileName startLine endLine repoPath).cwd
        = (Git.log fileName repoPath).cwd
    ∧ (Git.logRange fileName startLine endLine repoPath).args =
        (((Git.log fileName repoPath).args.erase ("--follow")).dropLast)
          ++ [("-L ") ++ toString startLine ++ (",") ++ toString endLine ++ (":")
                ++ (Git.splitPath (Git.normalizePath fileName) repoPath).1] :=
  ⟨rfl, rfl⟩

/-- C4 counterexample: the real lowercase message of the external tool
contains the substring claimed benign ("not a git repository"), yet the
invoker logs it at ERROR level: the source matches the capitalized literal
"Not a git repository", and the substring match is case-sensitive. -/
theorem gitCommand_lowercase_cex :
    containsStr ("fatal: not a git repository (or any of the parent directories): .git")
        ("not a git repository") = true
    ∧ (gitCommand ("r") [("log")]
        (Except.error ⟨some ("fatal: not a git repository (or any of the parent directories): .git")⟩)).2.map
          LogEntry.level = [LogLevel.error] := by
  decide

/-- C4 (amended): for every failing invocation, gitCommand logs at warning
level exactly when the (case-sensitive) failure message contains one of the
three substrings "Not a git repository" (capital N), "is outside
repository", or "no such path"; every other failure — including a falsy
exception with no message — logs at error level; and in all cases the
identical underlying error value is re-thrown unchanged. -/
theorem gitCommand_classification (cwd : String) (args : List String)
    (ex : JsError) :
    (gitCommand cwd args (Except.error ex)).1 = Except.error ex
    ∧ (gitCommand cwd args (Except.error ex)).2.map LogEntry.level =
        [match ex.msg with
         | some m =>
           if containsStr m ("Not a git repository")
               || containsStr m ("is outside repository")
               || containsStr m ("no such path")
           then LogLevel.warn else LogLevel.error
         | none => LogLevel.error] := by
  obtain ⟨msg⟩ := ex
  cases msg with
  | none => exact ⟨rfl, rfl⟩
  | some m =>
    by_cases h : (containsStr m ("Not a git repository")
        || containsStr m ("is outside repository")
        || containsStr m ("no such path")) = true
    · simp [gitCommand, h]
    · simp [gitCommand, h]

/-- C9: every invocation of gitCommand emits exactly one log entry — an
info-level entry exactly when the tool succeeds, and a warn- or error-level
entry when it fails; never zero entries and never more than one. -/
theorem gitCommand_exactly_one_log (cwd : String) (args : List String)
    (spawn : Except JsError String) :
    (gitCommand cwd args spawn).2.length = 1
    ∧ ((gitCommand cwd args spawn).2.map LogEntry.level = [LogLevel.info]
        ↔ spawn.isOk = true)
    ∧ ((gitCommand cwd args spawn).2.map LogEntry.level = [LogLevel.info]
        ∨ (gitCommand cwd args spawn).2.map LogEntry.level = [LogLevel.warn]
        ∨ (gitCommand cwd args spawn).2.map LogEntry.level = [LogLevel.error]) := by
  cases spawn with
  | ok s => exact ⟨rfl, by simp [gitCommand, Except.isOk, Except.toBool], Or.inl rfl⟩
  | error ex =>
    obtain ⟨msg⟩ := ex
    cases msg with
    | none => exact ⟨rfl, by simp [gitCommand, Except.isOk, Except.toBool], Or.inr (Or.inr rfl)⟩
    | some m =>
      by_cases h : (containsStr m ("Not a git repository")
          || containsStr m ("is outside repository")
          || containsStr m ("no such path")) = true
      · exact ⟨by simp [gitCommand, h], by simp [gitCommand, h, Except.isOk, Except.toBool],
          Or.inr (Or.inl (by simp [gitCommand, h]))⟩
      · exact ⟨by simp [gitCommand, h], by simp [gitCommand, h, Except.isOk, Except.toBool],
          Or.inr (Or.inr (by simp [gitCommand, h]))⟩

/-- C5: for every file name and root, requesting revision content with a
revision that, after its `^` stripping, is the all-zero uncommitted sentinel
rejects with the descriptive error message before any command is built — the
result is `Except.error`, which by construction carries no `GitCmd`, so no
process invocation can occur. -/
theorem getVersionedFileText_uncommitted_rejects (fileName repoPath sha : String)
    (h : Git.isUncommitted (replaceFirstStr sha ("^") ("")) = true) :
    Git.getVersionedFileText fileName repoPath sha =
      Except.error (("sha=") ++ replaceFirstStr sha ("^") ("") ++ (" is uncommitted")) := by
  simp [Git.getVersionedFileText, h]

/-- C5 witness: the 40-character all-zero sentinel is rejected. -/
theorem getVersionedFileText_uncommitted_rejects_w :
    Git.isUncommitted
        (replaceFirstStr ("0000000000000000000000000000000000000000") ("^") ("")) = true
    ∧ Git.getVersionedFileText ("a.ts") ("r")
        ("0000000000000000000000000000000000000000") =
      Except.error (("sha=")
        ++ replaceFirstStr ("0000000000000000000000000000000000000000") ("^") ("")
        ++ (" is uncommitted")) :=
  ⟨by decide,
    getVersionedFileText_uncommitted_rejects ("a.ts") ("r")
      ("0000000000000000000000000000000000000000") (by decide)⟩

/-- C6: for every file name and root, content retrieval with revision
"deadbeef^" behaves identically to revision "deadbeef": the trailing `^` is
stripped before the command is built. -/
theorem getVersionedFileText_caret_stripped (fileName repoPath : String) :
    Git.getVersionedFileText fileName repoPath ("deadbeef^")
      = Git.getVersionedFileText fileName repoPath ("deadbeef") := by
  have h1 : replaceFirstStr ("deadbeef^") ("^") ("") = ("deadbeef") := by decide
  have h2 : replaceFirstStr ("deadbeef") ("^") ("") = ("deadbeef") := by decide
  simp only [Git.getVersionedFileText, h1, h2]

/-- C2 (code bug): at the concrete failing input — the uncommitted sentinel
revision, on which the content-fetch step rejects — the promise returned by
getVersionedFile never settles under ANY file-system environment: the source
attaches no rejection handler (no second `.then` argument, no `.catch`), so
the error is lost silently instead of being propagated, contradicting the
stated propagation policy. -/
theorem getVersionedFile_loses_text_error :
    (getVersionedFileTextRun ("a.ts") ("r")
        ("0000000000000000000000000000000000000000") (fun _ => Except.ok ("")) =
      Except.error ⟨some ("sha=0000000000000000000000000000000000000000 is uncommitted")⟩)
    ∧ ∀ env : FsEnv,
        Git.getVersionedFile
          (getVersionedFileTextRun ("a.ts") ("r")
            ("0000000000000000000000000000000000000000") (fun _ => Except.ok ("")))
          env = Settle.pending := by
  refine ⟨by decide, ?_⟩
  intro env
  have h : getVersionedFileTextRun ("a.ts") ("r")
      ("0000000000000000000000000000000000000000") (fun _ => Except.ok ("")) =
      Except.error ⟨some ("sha=0000000000000000000000000000000000000000 is uncommitted")⟩ := by
    decide
  rw [h]
  rfl
